import Mathlib

/-!
Shallow embedding of the rate-limiting / request-id middleware subsystem of
the fastapi-template repository (src/core/middleware/rate_limit.py,
src/core/middleware/request_id.py, src/core/asgi.py).

Modelling choices:
* Python floats are modelled as exact rationals (ℚ); all concrete scenarios
  in the claims use small integers for which float arithmetic is exact.
* `time.monotonic()` is passed explicitly as the `now : ℚ` argument.
* The mutable bucket dictionary is an association list threaded through
  `is_allowed` functionally.
* Python `int(x)` truncates toward zero: `pyInt`.
* HTTP header collections are association lists with case-insensitive keys
  (Starlette `Headers.get` / `MutableHeaders.__setitem__`).
-/

namespace FastapiTemplate

/-- Python `min(a, b)` on floats (returns the first argument on ties). -/
def pyMin (a b : ℚ) : ℚ := if a ≤ b then a else b

/-- Python `max(a, b)` on ints (returns the second argument when `a ≤ b`;
on ties the two are equal, so tie order is irrelevant). -/
def pyMax (a b : ℤ) : ℤ := if a ≤ b then b else a

/-- Python `int(q)`: truncation toward zero. -/
def pyInt (q : ℚ) : ℤ := if 0 ≤ q then q.floor else q.ceil

/-- `RateLimitBucket` dataclass: token bucket for rate limiting a single client. -/
structure RateLimitBucket where
  tokens : ℚ
  last_update : ℚ
deriving Repr, DecidableEq

/-- State of `InMemoryRateLimiter`: refill rate (tokens/second), burst size,
and the `_buckets` dictionary. -/
structure InMemoryRateLimiter where
  rate : ℚ
  burst_size : ℤ
  buckets : List (String × RateLimitBucket)
deriving Repr, DecidableEq

/-- `InMemoryRateLimiter.__init__`: `rate = requests_per_minute / 60.0`,
empty bucket map. -/
def mkLimiter (requests_per_minute : ℤ) (burst_size : ℤ) : InMemoryRateLimiter :=
  { rate := (requests_per_minute : ℚ) / 60
    burst_size := burst_size
    buckets := [] }

/-- Dictionary lookup `self._buckets[key]` / `key in self._buckets`. -/
def lookupBucket (bs : List (String × RateLimitBucket)) (k : String) :
    Option RateLimitBucket :=
  match bs with
  | [] => none
  | (k', b) :: rest => if k' = k then some b else lookupBucket rest k

/-- Dictionary store `self._buckets[key] = bucket` (overwrite or append). -/
def insertBucket (bs : List (String × RateLimitBucket)) (k : String)
    (b : RateLimitBucket) : List (String × RateLimitBucket) :=
  match bs with
  | [] => [(k, b)]
  | (k', b') :: rest =>
      if k' = k then (k, b) :: rest else (k', b') :: insertBucket rest k b

/-- The headers dictionary built by the limiter: `X-RateLimit-Limit`,
`X-RateLimit-Remaining`, and optionally `Retry-After`, kept as integers. -/
structure RateHeaders where
  limit : ℤ
  remaining : ℤ
  retryAfter : Option ℤ
deriving Repr, DecidableEq

/-- `InMemoryRateLimiter._get_headers`: `limit = burst_size`,
`remaining = max(0, int(remaining))`, no `Retry-After`. -/
def get_headers (limiter : InMemoryRateLimiter) (remaining : ℚ) : RateHeaders :=
  { limit := limiter.burst_size
    remaining := pyMax 0 (pyInt remaining)
    retryAfter := none }

/-- The replenishment step of `is_allowed` (lines 54-55 of rate_limit.py):
`bucket.tokens = min(self.burst_size, bucket.tokens + elapsed * self.rate)`
with `elapsed = now - bucket.last_update`. -/
def refilled (limiter : InMemoryRateLimiter) (bucket : RateLimitBucket)
    (now : ℚ) : ℚ :=
  pyMin ((limiter.burst_size : ℚ))
    (bucket.tokens + (now - bucket.last_update) * limiter.rate)

/-- `InMemoryRateLimiter.is_allowed(key)` at time `now`, returning
`(allowed, headers)` together with the successor limiter state. -/
def is_allowed (limiter : InMemoryRateLimiter) (key : String) (now : ℚ) :
    Bool × RateHeaders × InMemoryRateLimiter :=
  match lookupBucket limiter.buckets key with
  | none =>
      -- First request from this client
      let b : RateLimitBucket :=
        { tokens := (limiter.burst_size : ℚ) - 1, last_update := now }
      (true, get_headers limiter ((limiter.burst_size : ℚ) - 1),
        { limiter with buckets := insertBucket limiter.buckets key b })
  | some bucket =>
      -- Replenish tokens based on elapsed time
      let tokens1 := refilled limiter bucket now
      if 1 ≤ tokens1 then
        let b : RateLimitBucket := { tokens := tokens1 - 1, last_update := now }
        (true, get_headers limiter (tokens1 - 1),
          { limiter with buckets := insertBucket limiter.buckets key b })
      else
        -- Rate limited - calculate retry time
        let b : RateLimitBucket := { tokens := tokens1, last_update := now }
        let retry_after := pyInt ((1 - tokens1) / limiter.rate) + 1
        let h := get_headers limiter tokens1
        (false, { h with retryAfter := some retry_after },
          { limiter with buckets := insertBucket limiter.buckets key b })

/-- `n` successive `is_allowed` calls for `key`, all at the same monotonic
instant `now` (constant clock), keeping only the final limiter state. -/
def callN (limiter : InMemoryRateLimiter) (key : String) (now : ℚ) :
    ℕ → InMemoryRateLimiter
  | 0 => limiter
  | n + 1 => (is_allowed (callN limiter key now n) key now).2.2

/-- The bucket stored for `key` right after an `is_allowed` call
(the call always stores one, so the default is never reached). -/
def bucketAfter (limiter : InMemoryRateLimiter) (key : String) (now : ℚ) :
    RateLimitBucket :=
  (lookupBucket (is_allowed limiter key now).2.2.buckets key).getD
    { tokens := 0, last_update := 0 }

/-! ### HTTP layer: requests, responses, case-insensitive header lists. -/

/-- The parts of a Starlette `Request` the middleware reads: URL path,
headers, and the transport-level peer (`request.client.host`, when any). -/
structure Request where
  path : String
  headers : List (String × String)
  client : Option String
deriving Repr, DecidableEq

/-- The parts of a Starlette `Response` the middleware produces or mutates. -/
structure Response where
  status : ℕ
  headers : List (String × String)
deriving Repr, DecidableEq

/-- Lower-casing of a header name, character by character (HTTP header
names are compared case-insensitively by Starlette). -/
def lowerKey (s : String) : List Char := s.data.map Char.toLower

/-- Python `str.strip()` whitespace (the ASCII whitespace characters). -/
def isPySpace (c : Char) : Bool :=
  c == ' ' || c == '\t' || c == '\n' || c == '\r' || c == '\x0B' || c == '\x0C'

/-- Python `str.strip()`: remove leading and trailing whitespace. -/
def pyStrip (s : String) : String :=
  String.mk (((s.data.dropWhile isPySpace).reverse.dropWhile isPySpace).reverse)

/-- Python `str.split(",")`: split at every comma; always returns at least
one (possibly empty) group. -/
def splitComma : List Char → List (List Char)
  | [] => [[]]
  | c :: rest =>
      if c == ',' then [] :: splitComma rest
      else
        match splitComma rest with
        | [] => [[c]]
        | g :: gs => (c :: g) :: gs

/-- Python `s.split(",")[0]` (the split list is never empty). -/
def firstCommaEntry (s : String) : String :=
  String.mk ((splitComma s.data).headD [])

/-- Starlette `Headers.get(k)`: case-insensitive lookup, first match. -/
def headersGet (hs : List (String × String)) (k : String) : Option String :=
  match hs with
  | [] => none
  | (k', v) :: rest => if lowerKey k' = lowerKey k then some v else headersGet rest k

/-- Starlette `MutableHeaders.__setitem__`: replace the first entry whose key
matches case-insensitively, else append. -/
def setHeader (hs : List (String × String)) (k v : String) :
    List (String × String) :=
  match hs with
  | [] => [(k, v)]
  | (k', v') :: rest =>
      if lowerKey k' = lowerKey k then (k, v) :: rest
      else (k', v') :: setHeader rest k v

/-- Rendering of the limiter's headers dict in its insertion order:
`X-RateLimit-Limit`, `X-RateLimit-Remaining`, then `Retry-After` if set. -/
def headersToList (h : RateHeaders) : List (String × String) :=
  [("X-RateLimit-Limit", toString h.limit),
   ("X-RateLimit-Remaining", toString h.remaining)] ++
    (match h.retryAfter with
     | none => []
     | some ra => [("Retry-After", toString ra)])

/-- The `for key, value in headers.items(): response.headers[key] = value`
loop stamping rate-limit headers onto a passed-through response. -/
def stampHeaders (resp : Response) (hs : List (String × String)) : Response :=
  { resp with
    headers := hs.foldl (fun acc kv => setHeader acc kv.1 kv.2) resp.headers }

/-! ### RateLimitMiddleware. -/

/-- `RateLimitMiddleware.EXCLUDED_PATHS`: paths excluded from rate limiting. -/
def EXCLUDED_PATHS : List String := ["/health", "/v1/health"]

/-- Fallback of `_get_client_ip`: direct client IP, else `"unknown"`. -/
def clientFromPeer (req : Request) : String :=
  match req.client with
  | some host => host
  | none => "unknown"

/-- Second step of `_get_client_ip`: the `X-Real-IP` header when truthy
(present and non-empty), else the peer fallback. -/
def clientFromRealIp (req : Request) : String :=
  match headersGet req.headers "X-Real-IP" with
  | some real_ip => if real_ip = "" then clientFromPeer req else pyStrip real_ip
  | none => clientFromPeer req

/-- `RateLimitMiddleware._get_client_ip`: `X-Forwarded-For` first entry
(trimmed) when the header is truthy, else `X-Real-IP`, else peer, else
`"unknown"`. -/
def get_client_ip (req : Request) : String :=
  match headersGet req.headers "X-Forwarded-For" with
  | some forwarded =>
      if forwarded = "" then clientFromRealIp req
      else pyStrip (firstCommaEntry forwarded)
  | none => clientFromRealIp req

/-- `RateLimitMiddleware.dispatch`: `inner` is the response `call_next`
would produce. Returns the outbound response and successor limiter state. -/
def dispatch (limiter : InMemoryRateLimiter) (req : Request) (now : ℚ)
    (inner : Response) : Response × InMemoryRateLimiter :=
  if req.path ∈ EXCLUDED_PATHS then (inner, limiter)
  else
    let r := is_allowed limiter (get_client_ip req) now
    if r.1 then (stampHeaders inner (headersToList r.2.1), r.2.2)
    else ({ status := 429, headers := headersToList r.2.1 }, r.2.2)

/-! ### RequestIDMiddleware and the middleware registration order. -/

def REQUEST_ID_HEADER : String := "X-Request-ID"

/-- Python `a or b` for an optional string: `b` when `a` is `None` or `""`. -/
def pyOrElse (a : Option String) (b : String) : String :=
  match a with
  | none => b
  | some s => if s = "" then b else s

/-- An unhandled Python exception propagating out of the inner
application (the `Exception` case routed to Starlette's
`ServerErrorMiddleware`, not to the in-stack handlers). -/
inductive PyExc
  | exc
deriving Repr, DecidableEq

/-- `RequestIDMiddleware.dispatch`; `call_next` maps the request id stored
in `request.state.request_id` to the inner outcome: `Except.ok` for any
response returned through the stack (handlers, rate-limit rejections, and
the in-stack `AppError`/validation exception handlers), `Except.error` when
the inner call raises. On a raise, the `await call_next(request)` at
request_id.py line 31 re-raises, so the stamping at line 34 never runs and
the exception propagates (there is no try/finally). -/
def requestIdDispatch (req : Request) (freshUuid : String)
    (call_next : String → Except PyExc Response) : Except PyExc Response :=
  let request_id := pyOrElse (headersGet req.headers REQUEST_ID_HEADER) freshUuid
  match call_next request_id with
  | Except.error e => Except.error e
  | Except.ok response =>
      Except.ok { response with
        headers := setHeader response.headers REQUEST_ID_HEADER request_id }

/-- Starlette's `ServerErrorMiddleware`, which `build_middleware_stack`
places outside every user-registered middleware: an exception that escapes
the outermost user middleware is converted to the plain 500 response built
by `generic_exception_handler` (asgi.py lines 73-82), which sets no custom
headers; a returned response passes through unchanged. -/
def serverErrorMiddleware (result : Except PyExc Response) : Response :=
  match result with
  | Except.ok response => response
  | Except.error _ => { status := 500, headers := [] }

/-- ASCII hex digit. -/
def isHexDigit (c : Char) : Bool :=
  c.isDigit || ('a' ≤ c && c ≤ 'f') || ('A' ≤ c && c ≤ 'F')

/-- Canonical UUID shape at position `i`: hyphens at 8, 13, 18, 23, hex
digits elsewhere. -/
def uuidShape : List Char → ℕ → Bool
  | [], _ => true
  | c :: rest, i =>
      (if i = 8 ∨ i = 13 ∨ i = 18 ∨ i = 23 then c == '-' else isHexDigit c) &&
        uuidShape rest (i + 1)

/-- Canonical UUID string (the format of `str(uuid.uuid4())`): 36 characters
in `8-4-4-4-12` hyphenated hex-digit groups. -/
def isCanonicalUuid (s : String) : Bool := s.length == 36 && uuidShape s.data 0

/-- The three middleware registered by `get_app` in `src/core/asgi.py`. -/
inductive MiddlewareReg
  | cors
  | rateLimit
  | requestId
deriving Repr, DecidableEq

/-- Registration order of the `app.add_middleware` calls in `get_app`:
CORS, then rate limiting when enabled, then request id (last). -/
def registrationOrder (rateLimitEnabled : Bool) : List MiddlewareReg :=
  [MiddlewareReg.cors] ++
    (if rateLimitEnabled then [MiddlewareReg.rateLimit] else []) ++
    [MiddlewareReg.requestId]

/-- Starlette executes middleware in reverse registration order on the
inbound path: the last one added runs first, i.e. outermost. -/
def executionOrder (rateLimitEnabled : Bool) : List MiddlewareReg :=
  (registrationOrder rateLimitEnabled).reverse

/-! ### Invariants stated by the specification. -/

/-- The documented per-bucket invariant: `0 ≤ tokens ≤ burstCapacity`. -/
def BucketInv (B : ℤ) (b : RateLimitBucket) : Prop :=
  0 ≤ b.tokens ∧ b.tokens ≤ (B : ℚ)

/-- Every bucket in the limiter's key-to-bucket map satisfies `BucketInv`. -/
def MapInv (l : InMemoryRateLimiter) : Prop :=
  ∀ k b, lookupBucket l.buckets k = some b → BucketInv l.burst_size b

/-- All stored `last_update` stamps are at most the current monotonic time
(the monotonic clock never runs backwards). -/
def ClockInv (l : InMemoryRateLimiter) (now : ℚ) : Prop :=
  ∀ k b, lookupBucket l.buckets k = some b → b.last_update ≤ now

/-- An inner chain returning a fixed plain 200 response with no headers,
used to instantiate `call_next` at concrete inputs. -/
def constOk : String → Except PyExc Response :=
  fun _ => Except.ok { status := 200, headers := [] }

/-- An inner chain that raises an unhandled exception. -/
def raisingNext : String → Except PyExc Response :=
  fun _ => Except.error PyExc.exc

/-! ### Bridge lemmas between the executable Python-style operations and
the Mathlib order/floor vocabulary. -/

theorem pyMin_eq_min (a b : ℚ) : pyMin a b = min a b := (min_def a b).symm

theorem pyMax_eq_max (a b : ℤ) : pyMax a b = max a b := (max_def a b).symm

theorem rat_floor_eq_intFloor (q : ℚ) : q.floor = ⌊q⌋ :=
  (Rat.floor_def' q).trans Rat.floor_def.symm

theorem pyInt_of_nonneg {q : ℚ} (h : 0 ≤ q) : pyInt q = ⌊q⌋ := by
  rw [pyInt, if_pos h, rat_floor_eq_intFloor]

theorem rat_ceil_intCast (m : ℤ) : Rat.ceil ((m : ℤ) : ℚ) = m := by
  rw [Rat.ceil, if_pos (Rat.den_intCast m), Rat.num_intCast]

theorem pyInt_intCast (m : ℤ) : pyInt ((m : ℤ) : ℚ) = m := by
  by_cases h : (0 : ℚ) ≤ (m : ℚ)
  · rw [pyInt_of_nonneg h, Int.floor_intCast]
  · rw [pyInt, if_neg h, rat_ceil_intCast]

theorem pyMax_nonneg_left (x : ℤ) : 0 ≤ pyMax 0 x := by
  rw [pyMax_eq_max]; exact le_max_left 0 x

/-! ### Structural lemmas about the bucket dictionary and `is_allowed`. -/

theorem lookupBucket_insert_self (bs : List (String × RateLimitBucket))
    (k : String) (b : RateLimitBucket) :
    lookupBucket (insertBucket bs k b) k = some b := by
  induction bs with
  | nil => simp [insertBucket, lookupBucket]
  | cons hd tl ih =>
      obtain ⟨k', b'⟩ := hd
      by_cases h : k' = k
      · simp [insertBucket, lookupBucket, h]
      · simp [insertBucket, lookupBucket, h, ih]

theorem lookupBucket_insert_ne (bs : List (String × RateLimitBucket))
    (k k'' : String) (b : RateLimitBucket) (h : k'' ≠ k) :
    lookupBucket (insertBucket bs k b) k'' = lookupBucket bs k'' := by
  induction bs with
  | nil => simp [insertBucket, lookupBucket, Ne.symm h]
  | cons hd tl ih =>
      obtain ⟨k', b'⟩ := hd
      by_cases hk : k' = k
      · subst hk
        simp [insertBucket, lookupBucket, Ne.symm h]
      · simp [insertBucket, lookupBucket, hk, ih]

theorem insertBucket_insertBucket (bs : List (String × RateLimitBucket))
    (k : String) (b b' : RateLimitBucket) :
    insertBucket (insertBucket bs k b) k b' = insertBucket bs k b' := by
  induction bs with
  | nil => simp [insertBucket]
  | cons hd tl ih =>
      obtain ⟨k1, b1⟩ := hd
      by_cases hk : k1 = k
      · simp [insertBucket, hk]
      · simp [insertBucket, hk, ih]

theorem is_allowed_fresh (l : InMemoryRateLimiter) (key : String) (now : ℚ)
    (h : lookupBucket l.buckets key = none) :
    is_allowed l key now =
      (true, get_headers l ((l.burst_size : ℚ) - 1),
        { l with buckets := (insertBucket l.buckets key
            ⟨(l.burst_size : ℚ) - 1, now⟩) }) := by
  unfold is_allowed
  rw [h]

theorem is_allowed_found_admitted (l : InMemoryRateLimiter) (key : String)
    (now : ℚ) (bucket : RateLimitBucket)
    (hb : lookupBucket l.buckets key = some bucket)
    (ht : 1 ≤ refilled l bucket now) :
    is_allowed l key now =
      (true, get_headers l (refilled l bucket now - 1),
        { l with buckets := (insertBucket l.buckets key
            ⟨refilled l bucket now - 1, now⟩) }) := by
  unfold is_allowed
  rw [hb]
  simp [ht]

theorem is_allowed_found_reject (l : InMemoryRateLimiter) (key : String)
    (now : ℚ) (bucket : RateLimitBucket)
    (hb : lookupBucket l.buckets key = some bucket)
    (ht : ¬ 1 ≤ refilled l bucket now) :
    is_allowed l key now =
      (false,
        { get_headers l (refilled l bucket now) with
            retryAfter := some (pyInt ((1 - refilled l bucket now) / l.rate) + 1) },
        { l with buckets := (insertBucket l.buckets key
            ⟨refilled l bucket now, now⟩) }) := by
  unfold is_allowed
  rw [hb]
  simp [ht]

theorem is_allowed_rate (l : InMemoryRateLimiter) (key : String) (now : ℚ) :
    (is_allowed l key now).2.2.rate = l.rate := by
  unfold is_allowed
  cases lookupBucket l.buckets key with
  | none => rfl
  | some bucket => by_cases h : (1 : ℚ) ≤ refilled l bucket now <;> simp [h]

theorem is_allowed_burst (l : InMemoryRateLimiter) (key : String) (now : ℚ) :
    (is_allowed l key now).2.2.burst_size = l.burst_size := by
  unfold is_allowed
  cases lookupBucket l.buckets key with
  | none => rfl
  | some bucket => by_cases h : (1 : ℚ) ≤ refilled l bucket now <;> simp [h]

/-! ### Header list lemmas. -/

theorem headersGet_setHeader_self (hs : List (String × String)) (k v : String) :
    headersGet (setHeader hs k v) k = some v := by
  induction hs with
  | nil => simp [setHeader, headersGet]
  | cons hd tl ih =>
      obtain ⟨k', v'⟩ := hd
      by_cases h : lowerKey k' = lowerKey k
      · simp [setHeader, headersGet, h]
      · simp [setHeader, headersGet, h, ih]

theorem headersGet_setHeader_ne (hs : List (String × String)) (k v k'' : String)
    (h : lowerKey k'' ≠ lowerKey k) :
    headersGet (setHeader hs k v) k'' = headersGet hs k'' := by
  induction hs with
  | nil => simp [setHeader, headersGet, Ne.symm h]
  | cons hd tl ih =>
      obtain ⟨k', v'⟩ := hd
      by_cases hk : lowerKey k' = lowerKey k
      · by_cases hq : lowerKey k' = lowerKey k''
        · exact absurd (hq.symm.trans hk) h
        · simp [setHeader, headersGet, hk, hq, Ne.symm h]
      · by_cases hq : lowerKey k' = lowerKey k''
        · simp [setHeader, headersGet, hk, hq, h]
        · simp [setHeader, headersGet, hk, hq, ih]

/-! ### Fresh-key, constant-clock evolution of the limiter (for C1/C2). -/

/-- One admitted step on a bucket holding `burst_size - m` tokens with the
clock unchanged: tokens drop to `burst_size - m - 1`. -/
theorem is_allowed_after_fresh_state (l : InMemoryRateLimiter) (key : String)
    (now : ℚ) (m : ℕ) (hm : 1 ≤ m) (hmB : (m : ℤ) < l.burst_size) :
    is_allowed
        { l with buckets := (insertBucket l.buckets key
            ⟨(l.burst_size : ℚ) - m, now⟩) } key now =
      (true, get_headers l ((l.burst_size : ℚ) - m - 1),
        { l with buckets := (insertBucket l.buckets key
            ⟨(l.burst_size : ℚ) - m - 1, now⟩) }) := by
  have hm0 : (0 : ℚ) < (m : ℚ) := by exact_mod_cast hm
  have hb := lookupBucket_insert_self l.buckets key
    ⟨(l.burst_size : ℚ) - m, now⟩
  have hre : refilled
      { l with buckets := (insertBucket l.buckets key
          ⟨(l.burst_size : ℚ) - m, now⟩) }
      ⟨(l.burst_size : ℚ) - m, now⟩ now = (l.burst_size : ℚ) - m := by
    show pyMin ((l.burst_size : ℚ))
        (((l.burst_size : ℚ) - m) + (now - now) * l.rate) =
      (l.burst_size : ℚ) - m
    rw [sub_self, zero_mul, add_zero, pyMin_eq_min,
      min_eq_right (sub_le_self _ (le_of_lt hm0))]
  have hadm : 1 ≤ refilled
      { l with buckets := (insertBucket l.buckets key
          ⟨(l.burst_size : ℚ) - m, now⟩) }
      ⟨(l.burst_size : ℚ) - m, now⟩ now := by
    rw [hre]
    have : (m : ℚ) + 1 ≤ (l.burst_size : ℚ) := by exact_mod_cast hmB
    linarith
  rw [is_allowed_found_admitted _ key now _ hb hadm, hre,
    insertBucket_insertBucket]
  rfl

/-- After `k` rapid calls (`1 ≤ k ≤ burst_size`) on a previously unseen key
with a constant clock, the key's bucket holds `burst_size - k` tokens. -/
theorem callN_fresh_state (l : InMemoryRateLimiter) (key : String) (now : ℚ)
    (hfresh : lookupBucket l.buckets key = none) :
    ∀ k : ℕ, 1 ≤ k → (k : ℤ) ≤ l.burst_size →
      callN l key now k =
        { l with buckets := (insertBucket l.buckets key
            ⟨(l.burst_size : ℚ) - k, now⟩) } := by
  intro k
  induction k with
  | zero => omega
  | succ m ih =>
      intro _ hle
      by_cases hm : m = 0
      · subst hm
        show (is_allowed l key now).2.2 = _
        rw [is_allowed_fresh l key now hfresh]
        norm_num
      · have hm1 : 1 ≤ m := Nat.one_le_iff_ne_zero.mpr hm
        have hmle : (m : ℤ) ≤ l.burst_size := by
          have : ((m : ℤ) + 1) ≤ l.burst_size := by exact_mod_cast hle
          omega
        have hmlt : (m : ℤ) < l.burst_size := by
          have : ((m : ℤ) + 1) ≤ l.burst_size := by exact_mod_cast hle
          omega
        show (is_allowed (callN l key now m) key now).2.2 = _
        rw [ih hm1 hmle, is_allowed_after_fresh_state l key now m hm1 hmlt]
        have : (l.burst_size : ℚ) - m - 1 = (l.burst_size : ℚ) - (m + 1 : ℕ) := by
          push_cast
          ring
        rw [this]

/-- The `i`-th rapid call on a previously unseen key (constant clock,
`1 ≤ i ≤ burst_size`): admitted, with headers computed from
`burst_size - i` tokens left. -/
theorem is_allowed_call_i (l : InMemoryRateLimiter) (key : String) (now : ℚ)
    (hfresh : lookupBucket l.buckets key = none)
    (i : ℕ) (h1 : 1 ≤ i) (hiB : (i : ℤ) ≤ l.burst_size) :
    is_allowed (callN l key now (i - 1)) key now =
      (true, get_headers l ((l.burst_size : ℚ) - i),
        { l with buckets := (insertBucket l.buckets key
            ⟨(l.burst_size : ℚ) - i, now⟩) }) := by
  by_cases hi1 : i = 1
  · subst hi1
    show is_allowed (callN l key now 0) key now = _
    show is_allowed l key now = _
    rw [is_allowed_fresh l key now hfresh]
    norm_num
  · have hm1 : 1 ≤ i - 1 := by omega
    have hmlt : ((i - 1 : ℕ) : ℤ) < l.burst_size := by
      have h2 : 2 ≤ i := by omega
      push_cast [Nat.cast_sub h1]
      omega
    rw [callN_fresh_state l key now hfresh (i - 1) hm1 (le_of_lt hmlt),
      is_allowed_after_fresh_state l key now (i - 1) hm1 hmlt]
    have : (l.burst_size : ℚ) - (i - 1 : ℕ) - 1 = (l.burst_size : ℚ) - i := by
      push_cast [Nat.cast_sub h1]
      ring
    rw [this]

/-! ### Shape lemmas for `refilled`, `retryAfter`, and `dispatch`. -/

theorem refilled_le_burst (l : InMemoryRateLimiter) (bucket : RateLimitBucket)
    (now : ℚ) : refilled l bucket now ≤ (l.burst_size : ℚ) := by
  rw [refilled, pyMin_eq_min]
  exact min_le_left _ _

theorem refilled_nonneg (l : InMemoryRateLimiter) (bucket : RateLimitBucket)
    (now : ℚ) (hB : 0 ≤ (l.burst_size : ℚ)) (htok : 0 ≤ bucket.tokens)
    (hcl : bucket.last_update ≤ now) (hr : 0 ≤ l.rate) :
    0 ≤ refilled l bucket now := by
  rw [refilled, pyMin_eq_min]
  exact le_min hB (add_nonneg htok (mul_nonneg (by linarith) hr))

theorem is_allowed_retryAfter_of_true (l : InMemoryRateLimiter) (key : String)
    (now : ℚ) (h : (is_allowed l key now).1 = true) :
    (is_allowed l key now).2.1.retryAfter = none := by
  cases hl : lookupBucket l.buckets key with
  | none => rw [is_allowed_fresh l key now hl]; rfl
  | some bucket =>
      by_cases hadm : 1 ≤ refilled l bucket now
      · rw [is_allowed_found_admitted l key now bucket hl hadm]; rfl
      · rw [is_allowed_found_reject l key now bucket hl hadm] at h
        simp at h

theorem is_allowed_retryAfter_of_false (l : InMemoryRateLimiter) (key : String)
    (now : ℚ) (h : (is_allowed l key now).1 = false) :
    ∃ ra, (is_allowed l key now).2.1.retryAfter = some ra := by
  cases hl : lookupBucket l.buckets key with
  | none => rw [is_allowed_fresh l key now hl] at h; simp at h
  | some bucket =>
      by_cases hadm : 1 ≤ refilled l bucket now
      · rw [is_allowed_found_admitted l key now bucket hl hadm] at h
        simp at h
      · rw [is_allowed_found_reject l key now bucket hl hadm]
        exact ⟨_, rfl⟩

theorem headersToList_of_retryAfter_none (h : RateHeaders)
    (hn : h.retryAfter = none) :
    headersToList h =
      [("X-RateLimit-Limit", toString h.limit),
       ("X-RateLimit-Remaining", toString h.remaining)] := by
  rw [headersToList, hn]
  rfl

theorem headersToList_of_retryAfter_some (h : RateHeaders) (ra : ℤ)
    (hs : h.retryAfter = some ra) :
    headersToList h =
      [("X-RateLimit-Limit", toString h.limit),
       ("X-RateLimit-Remaining", toString h.remaining),
       ("Retry-After", toString ra)] := by
  rw [headersToList, hs]
  rfl

theorem dispatch_admitted (l : InMemoryRateLimiter) (req : Request) (now : ℚ)
    (inner : Response) (hpath : req.path ∉ EXCLUDED_PATHS)
    (h : (is_allowed l (get_client_ip req) now).1 = true) :
    dispatch l req now inner =
      (stampHeaders inner
        (headersToList (is_allowed l (get_client_ip req) now).2.1),
       (is_allowed l (get_client_ip req) now).2.2) := by
  unfold dispatch
  rw [if_neg hpath, if_pos h]

theorem dispatch_reject (l : InMemoryRateLimiter) (req : Request) (now : ℚ)
    (inner : Response) (hpath : req.path ∉ EXCLUDED_PATHS)
    (h : (is_allowed l (get_client_ip req) now).1 = false) :
    dispatch l req now inner =
      ({ status := 429,
         headers := headersToList (is_allowed l (get_client_ip req) now).2.1 },
       (is_allowed l (get_client_ip req) now).2.2) := by
  unfold dispatch
  rw [if_neg hpath]
  rw [if_neg (by rw [h]; exact Bool.false_ne_true)]

/-! ### The claims. -/

/-- C3: assuming `burstCapacity ≥ 1`, a non-negative refill rate (requests
per minute is a non-negative count), and a non-decreasing monotonic clock,
every call to `is_allowed` preserves `0 ≤ tokens ≤ burstCapacity` for every
bucket in the map; in particular the refill saturates at `burstCapacity`
for arbitrarily long idle times. -/
theorem C3_bucket_invariant_preserved (l : InMemoryRateLimiter) (key : String)
    (now : ℚ) (hB : 1 ≤ l.burst_size) (hr : 0 ≤ l.rate)
    (hmap : MapInv l) (hclock : ClockInv l now) :
    MapInv (is_allowed l key now).2.2 := by
  intro k b hkb
  rw [BucketInv, is_allowed_burst]
  have hB0 : (0 : ℚ) ≤ (l.burst_size : ℚ) := by exact_mod_cast le_trans zero_le_one hB
  have hB1 : (1 : ℚ) ≤ (l.burst_size : ℚ) := by exact_mod_cast hB
  cases hl : lookupBucket l.buckets key with
  | none =>
      rw [is_allowed_fresh l key now hl] at hkb
      by_cases hk : k = key
      · subst hk
        rw [lookupBucket_insert_self] at hkb
        cases hkb
        constructor
        · show (0 : ℚ) ≤ (l.burst_size : ℚ) - 1
          linarith
        · show (l.burst_size : ℚ) - 1 ≤ (l.burst_size : ℚ)
          linarith
      · rw [lookupBucket_insert_ne _ _ _ _ hk] at hkb
        exact hmap k b hkb
  | some bucket =>
      have hbinv := hmap key bucket hl
      have hcl := hclock key bucket hl
      have hrle := refilled_le_burst l bucket now
      have hrnn := refilled_nonneg l bucket now hB0 hbinv.1 hcl hr
      by_cases hadm : 1 ≤ refilled l bucket now
      · rw [is_allowed_found_admitted l key now bucket hl hadm] at hkb
        by_cases hk : k = key
        · subst hk
          rw [lookupBucket_insert_self] at hkb
          cases hkb
          constructor
          · show (0 : ℚ) ≤ refilled l bucket now - 1
            linarith
          · show refilled l bucket now - 1 ≤ (l.burst_size : ℚ)
            linarith
        · rw [lookupBucket_insert_ne _ _ _ _ hk] at hkb
          exact hmap k b hkb
      · rw [is_allowed_found_reject l key now bucket hl hadm] at hkb
        by_cases hk : k = key
        · subst hk
          rw [lookupBucket_insert_self] at hkb
          cases hkb
          exact ⟨hrnn, hrle⟩
        · rw [lookupBucket_insert_ne _ _ _ _ hk] at hkb
          exact hmap k b hkb

/-- Witness for C3: starting from the empty map with `burstCapacity = 10`,
the bucket created by one call satisfies the invariant. -/
theorem C3_bucket_invariant_preserved_witness :
    BucketInv (10 : ℤ) ⟨9, 0⟩ := by
  have h := C3_bucket_invariant_preserved (mkLimiter 60 10) "k" 0
    (by norm_num [mkLimiter]) (by norm_num [mkLimiter])
    (by intro k b hb; simp [mkLimiter, lookupBucket] at hb)
    (by intro k b hb; simp [mkLimiter, lookupBucket] at hb)
  have hlk : lookupBucket (is_allowed (mkLimiter 60 10) "k" 0).2.2.buckets "k" =
      some ⟨9, 0⟩ := by
    norm_num [is_allowed, mkLimiter, lookupBucket, insertBucket, get_headers]
  have hb := h "k" ⟨9, 0⟩ hlk
  rw [BucketInv] at hb ⊢
  rwa [is_allowed_burst] at hb

/-- C4 counterexample: a limiter with rate 1 and burst 10 holding a bucket
with 1/2 token last updated at monotonic time 10, called at time 0
(elapsed = -10): the stored token count becomes -19/2 < 0, so negative
elapsed time does produce a negative token count (no lower clamp). -/
theorem C4_negative_elapsed_counterexample :
    lookupBucket (is_allowed
        { rate := 1, burst_size := 10,
          buckets := [("k", ⟨1/2, 10⟩)] } "k" 0).2.2.buckets "k" =
      some ⟨-(19/2 : ℚ), 0⟩ ∧ -(19/2 : ℚ) < 0 := by
  constructor
  · norm_num [is_allowed, lookupBucket, insertBucket, refilled, pyMin,
      get_headers, pyMax, pyInt]
  · norm_num

/-- C4 amended: with zero elapsed time (and a non-negative configured
burst), the token count after the call is still non-negative, and whenever
the refill rate is positive any returned `Retry-After` value is at least 1
(hence non-negative) for every elapsed time; but with strictly negative
elapsed time the refill step can store a negative token count, because the
implementation clamps only from above. -/
theorem C4_zero_elapsed_no_negative (l : InMemoryRateLimiter) (key : String)
    (now : ℚ) (bucket : RateLimitBucket)
    (hb : lookupBucket l.buckets key = some bucket) :
    (bucket.last_update = now → 0 ≤ bucket.tokens → 0 ≤ l.burst_size →
      0 ≤ (bucketAfter l key now).tokens) ∧
    (0 < l.rate → ∀ ra, (is_allowed l key now).2.1.retryAfter = some ra →
      1 ≤ ra) := by
  constructor
  · intro hlu htok hbst
    have hre0 : 0 ≤ refilled l bucket now := by
      rw [refilled, hlu, sub_self, zero_mul, add_zero, pyMin_eq_min]
      exact le_min (by exact_mod_cast hbst) htok
    by_cases hadm : 1 ≤ refilled l bucket now
    · rw [bucketAfter, is_allowed_found_admitted l key now bucket hb hadm]
      simp only [lookupBucket_insert_self, Option.getD_some]
      show (0 : ℚ) ≤ refilled l bucket now - 1
      linarith
    · rw [bucketAfter, is_allowed_found_reject l key now bucket hb hadm]
      simp only [lookupBucket_insert_self, Option.getD_some]
      exact hre0
  · intro hr ra hsome
    by_cases hadm : 1 ≤ refilled l bucket now
    · rw [is_allowed_found_admitted l key now bucket hb hadm] at hsome
      simp [get_headers] at hsome
    · rw [is_allowed_found_reject l key now bucket hb hadm] at hsome
      have : pyInt ((1 - refilled l bucket now) / l.rate) + 1 = ra := by
        injection hsome
      rw [← this]
      have harg : 0 ≤ (1 - refilled l bucket now) / l.rate := by
        have : refilled l bucket now < 1 := lt_of_not_le hadm
        exact div_nonneg (by linarith) (le_of_lt hr)
      have : 0 ≤ pyInt ((1 - refilled l bucket now) / l.rate) := by
        rw [pyInt_of_nonneg harg]
        exact Int.floor_nonneg.mpr harg
      omega

/-- Witness for C4 amended: rate 1, burst 10, bucket with 1/2 token,
zero elapsed time: the stored token count stays non-negative, and the
returned Retry-After value (1) is at least 1. -/
theorem C4_zero_elapsed_no_negative_witness :
    0 ≤ (bucketAfter
      { rate := 1, burst_size := 10, buckets := [("k", ⟨1/2, 5⟩)] }
      "k" 5).tokens ∧ (1 : ℤ) ≤ 1 := by
  have h := C4_zero_elapsed_no_negative
    { rate := 1, burst_size := 10, buckets := [("k", ⟨1/2, 5⟩)] } "k" 5
    ⟨1/2, 5⟩ rfl
  refine ⟨h.1 rfl (by norm_num) (by norm_num), h.2 (by norm_num) 1 ?_⟩
  norm_num [is_allowed, lookupBucket, insertBucket, refilled, pyMin,
    get_headers, pyMax, pyInt, Rat.floor]

theorem stampHeaders_pair (resp : Response) (k1 v1 k2 v2 : String) :
    stampHeaders resp [(k1, v1), (k2, v2)] =
      { resp with headers := setHeader (setHeader resp.headers k1 v1) k2 v2 } :=
  rfl

theorem headersGet_stamp_pair_left (resp : Response) (k1 v1 k2 v2 : String)
    (h : lowerKey k1 ≠ lowerKey k2) :
    headersGet (stampHeaders resp [(k1, v1), (k2, v2)]).headers k1 = some v1 := by
  rw [stampHeaders_pair]
  show headersGet (setHeader (setHeader resp.headers k1 v1) k2 v2) k1 = some v1
  rw [headersGet_setHeader_ne _ _ _ _ h, headersGet_setHeader_self]

theorem headersGet_stamp_pair_right (resp : Response) (k1 v1 k2 v2 : String) :
    headersGet (stampHeaders resp [(k1, v1), (k2, v2)]).headers k2 = some v2 := by
  rw [stampHeaders_pair]
  exact headersGet_setHeader_self _ _ _

/-- C5 counterexample: with the limiter enabled (configuration
`requestsPerMinute = 60`, `burstSize = 10`), a request to the excluded path
`/health` flows through `RateLimitMiddleware.dispatch` and its response
carries no `X-RateLimit-Limit` header at all. -/
theorem C5_excluded_path_counterexample :
    (dispatch (mkLimiter 60 10)
        { path := "/health", headers := [], client := some "1.2.3.4" } 0
        { status := 200, headers := [] }).1 =
      { status := 200, headers := [] } ∧
    headersGet (dispatch (mkLimiter 60 10)
        { path := "/health", headers := [], client := some "1.2.3.4" } 0
        { status := 200, headers := [] }).1.headers "X-RateLimit-Limit" =
      none := by
  constructor <;> decide

/-- C5 amended: for every request whose path is NOT in the excluded set,
the response produced by `dispatch` carries `X-RateLimit-Limit` and
`X-RateLimit-Remaining`; a rejection carries them on the 429 response with
`Retry-After` alongside, and an admitted request's response passes through
with unchanged status and exactly these headers stamped on. (Responses for
excluded health-check paths pass through without rate-limit headers.) -/
theorem C5_rate_headers_on_nonexcluded (l : InMemoryRateLimiter)
    (req : Request) (now : ℚ) (inner : Response)
    (hpath : req.path ∉ EXCLUDED_PATHS) :
    (∃ v, headersGet (dispatch l req now inner).1.headers
      "X-RateLimit-Limit" = some v) ∧
    (∃ v, headersGet (dispatch l req now inner).1.headers
      "X-RateLimit-Remaining" = some v) ∧
    ((is_allowed l (get_client_ip req) now).1 = false →
      (dispatch l req now inner).1.status = 429 ∧
      ∃ v, headersGet (dispatch l req now inner).1.headers
        "Retry-After" = some v) ∧
    ((is_allowed l (get_client_ip req) now).1 = true →
      (dispatch l req now inner).1 =
        stampHeaders inner
          (headersToList (is_allowed l (get_client_ip req) now).2.1) ∧
      (dispatch l req now inner).1.status = inner.status) := by
  have hLR : lowerKey "X-RateLimit-Limit" ≠ lowerKey "X-RateLimit-Remaining" := by
    decide
  have hLA : lowerKey "Retry-After" ≠ lowerKey "X-RateLimit-Limit" := by decide
  have hRA : lowerKey "Retry-After" ≠ lowerKey "X-RateLimit-Remaining" := by
    decide
  cases hall : (is_allowed l (get_client_ip req) now).1 with
  | true =>
      have hnone := is_allowed_retryAfter_of_true l (get_client_ip req) now hall
      have hd := dispatch_admitted l req now inner hpath hall
      have hlist := headersToList_of_retryAfter_none _ hnone
      rw [hd, hlist]
      refine ⟨?_, ?_, ?_, ?_⟩
      · exact ⟨_, headersGet_stamp_pair_left inner _ _ _ _ hLR⟩
      · exact ⟨_, headersGet_stamp_pair_right inner _ _ _ _⟩
      · intro hfalse
        simp at hfalse
      · intro _
        exact ⟨rfl, rfl⟩
  | false =>
      obtain ⟨ra, hra⟩ :=
        is_allowed_retryAfter_of_false l (get_client_ip req) now hall
      have hd := dispatch_reject l req now inner hpath hall
      have hlist := headersToList_of_retryAfter_some _ ra hra
      rw [hd, hlist]
      refine ⟨?_, ?_, ?_, ?_⟩
      · refine ⟨toString (is_allowed l (get_client_ip req) now).2.1.limit, ?_⟩
        simp [headersGet]
      · refine ⟨toString (is_allowed l (get_client_ip req) now).2.1.remaining, ?_⟩
        simp [headersGet, hLR]
      · intro _
        refine ⟨rfl, toString ra, ?_⟩
        simp [headersGet, Ne.symm hLA, Ne.symm hRA]
      · intro htrue
        simp at htrue

/-- Witness for C5 amended: concrete non-excluded request on a fresh
limiter; the admitted response carries both rate-limit headers. -/
theorem C5_rate_headers_on_nonexcluded_witness :
    (∃ v, headersGet (dispatch (mkLimiter 60 10)
        { path := "/users", headers := [], client := some "1.2.3.4" } 0
        { status := 200, headers := [] }).1.headers
        "X-RateLimit-Limit" = some v) ∧
    (∃ v, headersGet (dispatch (mkLimiter 60 10)
        { path := "/users", headers := [], client := some "1.2.3.4" } 0
        { status := 200, headers := [] }).1.headers
        "X-RateLimit-Remaining" = some v) := by
  have h := C5_rate_headers_on_nonexcluded (mkLimiter 60 10)
    { path := "/users", headers := [], client := some "1.2.3.4" } 0
    { status := 200, headers := [] } (by decide)
  exact ⟨h.1, h.2.1⟩

/-- C6: every request whose path is in the fixed excluded set bypasses the
limiter entirely: the inner response is returned unchanged and the limiter
state is untouched, for every limiter state and configuration. -/
theorem C6_excluded_paths_bypass (l : InMemoryRateLimiter) (req : Request)
    (now : ℚ) (inner : Response) (hpath : req.path ∈ EXCLUDED_PATHS) :
    dispatch l req now inner = (inner, l) := by
  unfold dispatch
  rw [if_pos hpath]

/-- Witness for C6: a `/health` request on an exhausted limiter is
admitted unchanged. -/
theorem C6_excluded_paths_bypass_witness :
    dispatch { rate := 1, burst_size := 10, buckets := [("1.2.3.4", ⟨0, 0⟩)] }
        { path := "/health", headers := [], client := some "1.2.3.4" } 0
        { status := 200, headers := [] } =
      ({ status := 200, headers := [] },
       { rate := 1, burst_size := 10, buckets := [("1.2.3.4", ⟨0, 0⟩)] }) :=
  C6_excluded_paths_bypass _ _ 0 _ (by decide)

/-- C7 counterexample: a request carrying a *present but empty*
`X-Forwarded-For` header plus `X-Real-IP: 1.1.1.1`. The claim says the key
is the trimmed first comma-entry of `X-Forwarded-For` (which is `""`)
whenever the header is present, but the code treats the empty header as
absent (Python truthiness) and keys the request under `1.1.1.1`. -/
theorem C7_empty_forwarded_counterexample :
    headersGet (Request.mk "/x"
        [("X-Forwarded-For", ""), ("X-Real-IP", "1.1.1.1")]
        (some "2.2.2.2")).headers "X-Forwarded-For" = some "" ∧
    pyStrip (firstCommaEntry "") = "" ∧
    get_client_ip (Request.mk "/x"
        [("X-Forwarded-For", ""), ("X-Real-IP", "1.1.1.1")]
        (some "2.2.2.2")) = "1.1.1.1" := by
  refine ⟨by decide, by decide, by decide⟩

/-- C7 amended: the key precedence holds with "present" strengthened to
"present and non-empty" (Python truthiness) at each header step: non-empty
`X-Forwarded-For` first comma-entry trimmed, else non-empty `X-Real-IP`
trimmed, else the transport peer address, else `"unknown"`. -/
theorem C7_client_ip_precedence (req : Request) :
    (∀ f, headersGet req.headers "X-Forwarded-For" = some f → f ≠ "" →
      get_client_ip req = pyStrip (firstCommaEntry f)) ∧
    ((headersGet req.headers "X-Forwarded-For" = none ∨
        headersGet req.headers "X-Forwarded-For" = some "") →
      ∀ r, headersGet req.headers "X-Real-IP" = some r → r ≠ "" →
        get_client_ip req = pyStrip r) ∧
    ((headersGet req.headers "X-Forwarded-For" = none ∨
        headersGet req.headers "X-Forwarded-For" = some "") →
      (headersGet req.headers "X-Real-IP" = none ∨
        headersGet req.headers "X-Real-IP" = some "") →
      ∀ h, req.client = some h → get_client_ip req = h) ∧
    ((headersGet req.headers "X-Forwarded-For" = none ∨
        headersGet req.headers "X-Forwarded-For" = some "") →
      (headersGet req.headers "X-Real-IP" = none ∨
        headersGet req.headers "X-Real-IP" = some "") →
      req.client = none → get_client_ip req = "unknown") := by
  refine ⟨?_, ?_, ?_, ?_⟩
  · intro f hf hne
    rw [get_client_ip, hf]
    show (if f = "" then clientFromRealIp req
      else pyStrip (firstCommaEntry f)) = pyStrip (firstCommaEntry f)
    rw [if_neg hne]
  · intro hxff r hr hne
    have hreal : clientFromRealIp req = pyStrip r := by
      rw [clientFromRealIp, hr]
      show (if r = "" then clientFromPeer req else pyStrip r) = pyStrip r
      rw [if_neg hne]
    rcases hxff with h | h
    · rw [get_client_ip, h]
      exact hreal
    · rw [get_client_ip, h]
      exact hreal
  · intro hxff hxr h hclient
    have hpeer : clientFromPeer req = h := by
      rw [clientFromPeer, hclient]
    have hreal : clientFromRealIp req = h := by
      rcases hxr with h2 | h2
      · rw [clientFromRealIp, h2]
        exact hpeer
      · rw [clientFromRealIp, h2]
        exact hpeer
    rcases hxff with h1 | h1
    · rw [get_client_ip, h1]
      exact hreal
    · rw [get_client_ip, h1]
      exact hreal
  · intro hxff hxr hclient
    have hpeer : clientFromPeer req = "unknown" := by
      rw [clientFromPeer, hclient]
    have hreal : clientFromRealIp req = "unknown" := by
      rcases hxr with h2 | h2
      · rw [clientFromRealIp, h2]
        exact hpeer
      · rw [clientFromRealIp, h2]
        exact hpeer
    rcases hxff with h1 | h1
    · rw [get_client_ip, h1]
      exact hreal
    · rw [get_client_ip, h1]
      exact hreal

/-- Witness for C7: the concrete scenario
`X-Forwarded-For: 9.9.9.9, 10.0.0.1` is keyed under `9.9.9.9` regardless of
the peer address. -/
theorem C7_client_ip_precedence_witness :
    get_client_ip (Request.mk "/x"
        [("X-Forwarded-For", "9.9.9.9, 10.0.0.1")]
        (some "8.8.8.8")) = "9.9.9.9" := by
  have h := (C7_client_ip_precedence (Request.mk "/x"
      [("X-Forwarded-For", "9.9.9.9, 10.0.0.1")]
      (some "8.8.8.8"))).1 "9.9.9.9, 10.0.0.1" (by decide) (by decide)
  exact h.trans (by decide)

/-- C8 counterexample: a request supplying the non-empty inbound header
`X-Request-ID: abc` whose handler raises an unhandled exception. The raise
propagates past the stamping line (request_id.py line 34 never runs, there
is no try/finally) into Starlette's `ServerErrorMiddleware`, which sits
outside all user-registered middleware (the `Exception` handler of
asgi.py line 113 is routed there by `build_middleware_stack`): the
resulting 500 response carries no `X-Request-ID` header at all, refuting
"every response — including those produced by an error path — carries a
non-empty X-Request-ID". -/
theorem C8_error_path_counterexample :
    serverErrorMiddleware (requestIdDispatch
        (Request.mk "/x" [("X-Request-ID", "abc")] none)
        "123e4567-e89b-42d3-a456-426614174000" raisingNext) =
      { status := 500, headers := [] } ∧
    headersGet (serverErrorMiddleware (requestIdDispatch
        (Request.mk "/x" [("X-Request-ID", "abc")] none)
        "123e4567-e89b-42d3-a456-426614174000" raisingNext)).headers
      "X-Request-ID" = none := by
  exact ⟨by decide, by decide⟩

/-- C8 amended: every response that *returns through* the middleware stack
— admitted responses, 429 rate-limit rejections, and error responses built
by the in-stack `AppError`/validation exception handlers, all covered by
the quantified `call_next` returning `Except.ok` — carries a non-empty
`X-Request-ID` header: the inbound value echoed exactly when present and
non-empty, else the freshly generated canonical UUID; and
`RequestIDMiddleware`, registered last in `get_app`, runs outermost among
the user-registered middleware in both configurations. An unhandled
exception, however, propagates past the stamping into Starlette's
`ServerErrorMiddleware` and its 500 response carries no `X-Request-ID`. -/
theorem C8_request_id_on_returned_responses (req : Request)
    (freshUuid : String) (hu : isCanonicalUuid freshUuid = true)
    (call_next : String → Except PyExc Response) (resp : Response)
    (hok : call_next
        (pyOrElse (headersGet req.headers REQUEST_ID_HEADER) freshUuid) =
      Except.ok resp) :
    requestIdDispatch req freshUuid call_next =
      Except.ok { resp with
        headers := setHeader resp.headers REQUEST_ID_HEADER
          (pyOrElse (headersGet req.headers REQUEST_ID_HEADER) freshUuid) } ∧
    headersGet (setHeader resp.headers REQUEST_ID_HEADER
        (pyOrElse (headersGet req.headers REQUEST_ID_HEADER) freshUuid))
        REQUEST_ID_HEADER =
      some (pyOrElse (headersGet req.headers REQUEST_ID_HEADER) freshUuid) ∧
    pyOrElse (headersGet req.headers REQUEST_ID_HEADER) freshUuid ≠ "" ∧
    (∀ s, headersGet req.headers REQUEST_ID_HEADER = some s → s ≠ "" →
      pyOrElse (headersGet req.headers REQUEST_ID_HEADER) freshUuid = s) ∧
    ((headersGet req.headers REQUEST_ID_HEADER = none ∨
        headersGet req.headers REQUEST_ID_HEADER = some "") →
      isCanonicalUuid
        (pyOrElse (headersGet req.headers REQUEST_ID_HEADER) freshUuid) =
        true) ∧
    (∀ e : Bool,
      (executionOrder e).head? = some MiddlewareReg.requestId) := by
  have hfresh_ne : freshUuid ≠ "" := by
    intro he
    rw [he] at hu
    exact absurd hu (by decide)
  refine ⟨?_, ?_, ?_, ?_, ?_, ?_⟩
  · rw [requestIdDispatch, hok]
  · exact headersGet_setHeader_self _ _ _
  · cases hh : headersGet req.headers REQUEST_ID_HEADER with
    | none => exact hfresh_ne
    | some s =>
        by_cases hs : s = ""
        · rw [pyOrElse, hs]
          simpa using hfresh_ne
        · rw [pyOrElse, if_neg hs]
          exact hs
  · intro s hs hne
    rw [hs, pyOrElse, if_neg hne]
  · intro hh
    rcases hh with h | h
    · rw [h, pyOrElse]
      exact hu
    · rw [h, pyOrElse, if_pos rfl]
      exact hu
  · intro e
    cases e <;> decide

/-- Witness for C8 amended: a request without an inbound `X-Request-ID`
whose inner chain returns a 200 gets the fresh canonical UUID stamped on
the response, and the request-id middleware runs outermost among the
user-registered middleware when the rate limiter is enabled. -/
theorem C8_request_id_on_returned_responses_witness :
    requestIdDispatch (Request.mk "/x" [] none)
        "123e4567-e89b-42d3-a456-426614174000" constOk =
      Except.ok (Response.mk 200
        [("X-Request-ID", "123e4567-e89b-42d3-a456-426614174000")]) ∧
    (executionOrder true).head? = some MiddlewareReg.requestId := by
  have h := C8_request_id_on_returned_responses (Request.mk "/x" [] none)
    "123e4567-e89b-42d3-a456-426614174000" (by decide) constOk
    { status := 200, headers := [] } rfl
  exact ⟨h.1, h.2.2.2.2.2 true⟩

/-- C1: for burst capacity `B ≥ 1` and a previously unseen key, every one
of `n ≤ B` successive `is_allowed` calls with no time elapsing between them
is admitted, and the `X-RateLimit-Remaining` value of the `i`-th call is
`B - i` (strictly decreasing from `B - 1` down to `B - n`). -/
theorem C1_burst_sequence_admitted (l : InMemoryRateLimiter) (key : String)
    (now : ℚ) (hfresh : lookupBucket l.buckets key = none)
    (_hB : 1 ≤ l.burst_size) (n : ℕ) (hn : (n : ℤ) ≤ l.burst_size)
    (i : ℕ) (h1 : 1 ≤ i) (hin : i ≤ n) :
    (is_allowed (callN l key now (i - 1)) key now).1 = true ∧
    (is_allowed (callN l key now (i - 1)) key now).2.1.remaining =
      l.burst_size - i := by
  have hiB : (i : ℤ) ≤ l.burst_size :=
    le_trans (by exact_mod_cast hin) hn
  rw [is_allowed_call_i l key now hfresh i h1 hiB]
  refine ⟨rfl, ?_⟩
  show pyMax 0 (pyInt ((l.burst_size : ℚ) - i)) = l.burst_size - i
  have hc : ((l.burst_size : ℚ) - i) = ((l.burst_size - i : ℤ) : ℚ) := by
    push_cast
    ring
  have h0 : (0 : ℤ) ≤ l.burst_size - i := by omega
  rw [hc, pyInt_intCast, pyMax_eq_max, max_eq_right h0]

/-- Witness for C1: burst 10, fresh key, third of three rapid calls:
admitted with remaining 7. -/
theorem C1_burst_sequence_admitted_witness :
    (is_allowed (callN (mkLimiter 60 10) "k" 0 2) "k" 0).1 = true ∧
    (is_allowed (callN (mkLimiter 60 10) "k" 0 2) "k" 0).2.1.remaining = 7 := by
  have h := C1_burst_sequence_admitted (mkLimiter 60 10) "k" 0 rfl
    (by norm_num [mkLimiter]) 3 (by norm_num [mkLimiter]) 3 (by norm_num)
    (by norm_num)
  exact ⟨h.1, by rw [h.2]; decide⟩

/-- C2 counterexample: with `requestsPerMinute = 60` and `burstSize = 10`,
the 11th immediate request from a fresh key (constant monotonic clock) is
rejected with `Retry-After` = 2, while the claimed formula
`ceil((1 - t)/r) = ceil((1 - 0)/1)` gives 1: the code computes
`int(...) + 1`, which exceeds the ceiling at integer arguments. -/
theorem C2_retry_after_counterexample :
    (is_allowed (callN (mkLimiter 60 10) "k" 0 10) "k" 0).1 = false ∧
    (is_allowed (callN (mkLimiter 60 10) "k" 0 10) "k" 0).2.1.retryAfter =
      some 2 ∧
    ⌈((1 : ℚ) - 0) / 1⌉ = (1 : ℤ) := by
  refine ⟨?_, ?_, by norm_num⟩ <;>
    norm_num [callN, is_allowed, mkLimiter, lookupBucket, insertBucket,
      get_headers, refilled, pyMax, pyMin, pyInt, Rat.floor]

/-- C2 amended: whenever `is_allowed` rejects (post-refill token count
`t < 1`, refill rate `r > 0`), the returned `Retry-After` equals
`floor((1 - t)/r) + 1` — which coincides with `ceil((1 - t)/r)` except when
`(1 - t)/r` is an integer, where it is one larger; in particular with
`requestsPerMinute = 60` and `burstSize = 10` the 11th immediate request
from a fresh key is rejected with `Retry-After` = 2. -/
theorem C2_retry_after_floor_succ (l : InMemoryRateLimiter) (key : String)
    (now : ℚ) (bucket : RateLimitBucket)
    (hb : lookupBucket l.buckets key = some bucket) (hr : 0 < l.rate)
    (ht : refilled l bucket now < 1) :
    (is_allowed l key now).1 = false ∧
    (is_allowed l key now).2.1.retryAfter =
      some (⌊(1 - refilled l bucket now) / l.rate⌋ + 1) := by
  rw [is_allowed_found_reject l key now bucket hb (not_le.mpr ht)]
  refine ⟨rfl, ?_⟩
  show some (pyInt ((1 - refilled l bucket now) / l.rate) + 1) = _
  have hpos : 0 ≤ (1 - refilled l bucket now) / l.rate :=
    div_nonneg (by linarith) (le_of_lt hr)
  rw [pyInt_of_nonneg hpos]

/-- Witness for C2 amended: rate 1, burst 10, bucket with 0 tokens, zero
elapsed: rejected with `Retry-After` = `floor(1/1) + 1` = 2. -/
theorem C2_retry_after_floor_succ_witness :
    (is_allowed { rate := 1, burst_size := 10, buckets := [("k", ⟨0, 0⟩)] }
      "k" 0).1 = false ∧
    (is_allowed { rate := 1, burst_size := 10, buckets := [("k", ⟨0, 0⟩)] }
      "k" 0).2.1.retryAfter = some 2 := by
  have h := C2_retry_after_floor_succ
    { rate := 1, burst_size := 10, buckets := [("k", ⟨0, 0⟩)] } "k" 0
    ⟨0, 0⟩ rfl (by norm_num) (by norm_num [refilled, pyMin])
  refine ⟨h.1, ?_⟩
  rw [h.2]
  norm_num [refilled, pyMin]

/-- C9: a rejected call on an existing bucket consumes no token: the
successor state stores exactly the refilled value
`min(burstSize, tokens + elapsed * rate)` for this key with only the
`last_update` stamp advanced to `now`, and changes nothing else. -/
theorem C9_reject_consumes_no_token (l : InMemoryRateLimiter) (key : String)
    (now : ℚ) (bucket : RateLimitBucket)
    (hb : lookupBucket l.buckets key = some bucket)
    (hrej : (is_allowed l key now).1 = false) :
    (is_allowed l key now).2.2 =
      { l with buckets := (insertBucket l.buckets key
          ⟨pyMin ((l.burst_size : ℚ))
            (bucket.tokens + (now - bucket.last_update) * l.rate), now⟩) } := by
  by_cases hadm : 1 ≤ refilled l bucket now
  · rw [is_allowed_found_admitted l key now bucket hb hadm] at hrej
    simp at hrej
  · rw [is_allowed_found_reject l key now bucket hb hadm]
    rfl

/-- Witness for C9: rate 1, burst 10, bucket with 1/2 token, zero elapsed:
the rejected call leaves the bucket's tokens at the refilled value 1/2. -/
theorem C9_reject_consumes_no_token_witness :
    (is_allowed { rate := 1, burst_size := 10, buckets := [("k", ⟨1/2, 0⟩)] }
      "k" 0).2.2.buckets = [("k", (⟨1/2, 0⟩ : RateLimitBucket))] := by
  have h := C9_reject_consumes_no_token
    { rate := 1, burst_size := 10, buckets := [("k", ⟨1/2, 0⟩)] } "k" 0
    ⟨1/2, 0⟩ rfl
    (by norm_num [is_allowed, lookupBucket, insertBucket, get_headers,
      refilled, pyMin, pyMax, pyInt, Rat.floor])
  rw [h]
  norm_num [insertBucket, pyMin]

/-- C10: the first request from a previously unseen key is admitted
unconditionally for every configured burst size, and the bucket is created
with `tokens = burstSize - 1`; for `burstSize = 0` this is a negative token
count, below the documented lower bound of 0. -/
theorem C10_first_request_unconditional (l : InMemoryRateLimiter)
    (key : String) (now : ℚ) (hfresh : lookupBucket l.buckets key = none) :
    (is_allowed l key now).1 = true ∧
    (bucketAfter l key now).tokens = (l.burst_size : ℚ) - 1 ∧
    (l.burst_size = 0 → (bucketAfter l key now).tokens < 0) := by
  have h1 : (is_allowed l key now).1 = true := by
    rw [is_allowed_fresh l key now hfresh]
  have h2 : (bucketAfter l key now).tokens = (l.burst_size : ℚ) - 1 := by
    rw [bucketAfter, is_allowed_fresh l key now hfresh]
    simp only [lookupBucket_insert_self, Option.getD_some]
  refine ⟨h1, h2, ?_⟩
  intro h0
  rw [h2, h0]
  norm_num

/-- Witness for C10: `burstSize = 0`, fresh key: admitted, with the new
bucket holding -1 tokens. -/
theorem C10_first_request_unconditional_witness :
    (is_allowed (mkLimiter 60 0) "k" 0).1 = true ∧
    (bucketAfter (mkLimiter 60 0) "k" 0).tokens < 0 := by
  have h := C10_first_request_unconditional (mkLimiter 60 0) "k" 0 rfl
  exact ⟨h.1, h.2.2 rfl⟩

end FastapiTemplate
